import Mathlib

/-!
Shallow embedding of the Redis reconciliation controller
(src/controllers/redis/redis_controller.go, function `Reconcile` and its
helper `generateConfigMaps`).

External collaborators (the lib-common condition ledger, the per-kind
create-or-patch sub-reconcilers, secret validation, configmap rendering,
hashing and status patching) are not part of src/; their observable
outcomes are supplied through an explicit environment record `Env`, and
the condition-ledger operations they provide are modelled from the spec
(each such definition carries a doc comment saying so).

Go machine details that matter here:
- `ctrl.Result` is a pair (requeue flag, requeue-after duration); the
  empty result is the zero value.
- The named return values `(result, _err)` are finalized by a deferred
  function that recomputes the overall Ready condition and patches the
  instance status; a patch failure overwrites `_err`.
- Calling `.Error()` on a nil `error` interface value panics; the panic
  runs the deferred function and then propagates (it is never recovered
  inside `Reconcile`).
-/

namespace RedisController

/-- Status of a Kubernetes-style condition: True, False or Unknown. -/
inductive CondStatus where
  | isTrue
  | isFalse
  | unknown
deriving DecidableEq

/-- The condition types declared by this controller: the aggregate Ready
condition plus the seven sub-conditions initialized at first observation
(lines 158-171 of the source). -/
inductive CondType where
  | ready
  | tlsInputReady
  | exposeServiceReady
  | serviceConfigReady
  | deploymentReady
  | serviceAccountReady
  | roleReady
  | roleBindingReady
deriving DecidableEq

/-- Condition reason codes used by the controller. -/
inductive CondReason where
  | reasonInit
  | reasonError
  | reasonReady
deriving DecidableEq

/-- Condition severities. -/
inductive CondSeverity where
  | sevError
  | sevWarning
  | sevInfo
  | sevNone
deriving DecidableEq

/-- One entry of the condition ledger. -/
structure Condition where
  ctype : CondType
  status : CondStatus
  reason : CondReason
  severity : CondSeverity
  message : String
deriving DecidableEq

/-- Message constants; the exact strings come from the external condition
package and are opaque to the source file, so stand-in values are used. -/
def readyMessage : String := "Setup complete"

/-- Initial message of the Ready condition. -/
def readyInitMessage : String := "Setup started"

/-- Message marking TLS input as complete. -/
def inputReadyMessage : String := "Input data complete"

/-- Initial message of the TLS input condition. -/
def inputReadyInitMessage : String := "Input data being checked"

/-- Error message prefix of the TLS input condition. -/
def tlsInputErrorMessage : String := "TLSInput error occured"

/-- Initial message of the expose-service condition. -/
def exposeServiceReadyInitMessage : String := "Exposing service in progress"

/-- Message marking services as exposed. -/
def exposeServiceReadyMessage : String := "Exposing service completed"

/-- Error message prefix of the expose-service condition. -/
def exposeServiceReadyErrorMessage : String := "Exposing service error occured"

/-- Initial message of the service-config condition. -/
def serviceConfigReadyInitMessage : String := "Service config create in progress"

/-- Message marking service config as ready. -/
def serviceConfigReadyMessage : String := "Service config create completed"

/-- Error message prefix of the service-config condition. -/
def serviceConfigReadyErrorMessage : String := "Service config create error occured"

/-- Initial message of the deployment condition. -/
def deploymentReadyInitMessage : String := "Deployment in progress"

/-- Message marking the deployment as ready. -/
def deploymentReadyMessage : String := "Deployment completed"

/-- Initial message of the service-account condition. -/
def serviceAccountReadyInitMessage : String := "ServiceAccount creation in progress"

/-- Initial message of the role condition. -/
def roleReadyInitMessage : String := "Role creation in progress"

/-- Initial message of the role-binding condition. -/
def roleBindingReadyInitMessage : String := "RoleBinding creation in progress"

/-- Formatting of a condition error message from a format constant and the
error's own message, standing in for Sprintf with one argument. -/
def condMessage (fmt arg : String) : String := fmt ++ ": " ++ arg

/-- Builds an Unknown condition, as condition.UnknownCondition does. -/
def unknownCondition (t : CondType) (r : CondReason) (msg : String) : Condition :=
  ⟨t, CondStatus.unknown, r, CondSeverity.sevNone, msg⟩

/-- Builds a False condition, as condition.FalseCondition does. -/
def falseCondition (t : CondType) (r : CondReason) (sev : CondSeverity) (msg : String) : Condition :=
  ⟨t, CondStatus.isFalse, r, sev, msg⟩

/-- Builds a True condition, as condition.TrueCondition does. -/
def trueCondition (t : CondType) (msg : String) : Condition :=
  ⟨t, CondStatus.isTrue, CondReason.reasonReady, CondSeverity.sevNone, msg⟩

/-- Modelled from the spec: the ledger's Set operation upserts a condition
by name (replaces the entry of the same type, else appends). -/
def setCondition : List Condition → Condition → List Condition
  | [], c => [c]
  | c' :: t, c => if c'.ctype = c.ctype then c :: t else c' :: setCondition t c

/-- Looks up the condition of a given type in the ledger. -/
def getCondition : List Condition → CondType → Option Condition
  | [], _ => none
  | c :: t, ty => if c.ctype = ty then some c else getCondition t ty

/-- Modelled from the spec: markTrue(name) records a sub-goal as achieved. -/
def markTrue (l : List Condition) (t : CondType) (msg : String) : List Condition :=
  setCondition l (trueCondition t msg)

/-- Modelled from the spec: markFalse/markUnknown record a sub-goal state. -/
def markUnknown (l : List Condition) (t : CondType) (r : CondReason) (msg : String) : List Condition :=
  setCondition l (unknownCondition t r msg)

/-- Modelled from the spec: AllSubConditionIsTrue holds when every declared
condition other than the overall Ready condition is True. -/
def allSubConditionIsTrue (l : List Condition) : Bool :=
  l.all fun c => decide (c.ctype = CondType.ready) || decide (c.status = CondStatus.isTrue)

/-- Severity ranking used to pick the most severe sub-condition: a False
condition outranks Unknown, which outranks True; among False conditions the
declared severity orders them. -/
def severityRank (c : Condition) : Nat :=
  match c.status with
  | CondStatus.isTrue => 0
  | CondStatus.unknown => 1
  | CondStatus.isFalse =>
    match c.severity with
    | CondSeverity.sevInfo => 2
    | CondSeverity.sevNone => 2
    | CondSeverity.sevWarning => 3
    | CondSeverity.sevError => 4

/-- Picks a condition of maximal severity rank (the earliest one on ties). -/
def pickMostSevere : List Condition → Option Condition
  | [] => none
  | c :: t =>
    match pickMostSevere t with
    | none => some c
    | some c' => if severityRank c' > severityRank c then some c' else some c

/-- Modelled from the spec: Mirror(target) derives a condition of the given
target type copying whichever sub-condition (non-Ready entry) is most
severe. -/
def mirror (l : List Condition) (target : CondType) : Option Condition :=
  match pickMostSevere (l.filter fun c => !decide (c.ctype = CondType.ready)) with
  | some c => some { c with ctype := target }
  | none => none

/-- The deferred recomputation of the overall Ready condition
(lines 133-144 of the source): Ready is marked True when every
sub-condition is True; otherwise it is reset to Unknown and then replaced
by a mirror of the most severe sub-condition. -/
def recomputeOverallReadiness (l : List Condition) : List Condition :=
  if allSubConditionIsTrue l then
    markTrue l CondType.ready readyMessage
  else
    match mirror (markUnknown l CondType.ready CondReason.reasonInit readyInitMessage)
        CondType.ready with
    | some c => setCondition (markUnknown l CondType.ready CondReason.reasonInit readyInitMessage) c
    | none => markUnknown l CondType.ready CondReason.reasonInit readyInitMessage

/-- The condition list installed at first observation (lines 158-173):
the seven sub-conditions as Unknown; modelled from the spec, the ledger's
Init also declares the overall Ready condition as Unknown. -/
def initialConditionList : List Condition :=
  unknownCondition CondType.ready CondReason.reasonInit readyInitMessage ::
  [ unknownCondition CondType.tlsInputReady CondReason.reasonInit inputReadyInitMessage,
    unknownCondition CondType.exposeServiceReady CondReason.reasonInit exposeServiceReadyInitMessage,
    unknownCondition CondType.serviceConfigReady CondReason.reasonInit serviceConfigReadyInitMessage,
    unknownCondition CondType.deploymentReady CondReason.reasonInit deploymentReadyInitMessage,
    unknownCondition CondType.serviceAccountReady CondReason.reasonInit serviceAccountReadyInitMessage,
    unknownCondition CondType.roleReady CondReason.reasonInit roleReadyInitMessage,
    unknownCondition CondType.roleBindingReady CondReason.reasonInit roleBindingReadyInitMessage ]

/-- A string-keyed association list standing in for a Go map; insertion
replaces the entry with the same key or appends a new one. -/
def insertEntry : List (String × String) → String → String → List (String × String)
  | [], k, v => [(k, v)]
  | (k', v') :: t, k, v => if k' = k then (k, v) :: t else (k', v') :: insertEntry t k v

/-- First value stored under a key, if any. -/
def lookupEntry : List (String × String) → String → Option String
  | [], _ => none
  | (k', v') :: t, k => if k' = k then some v' else lookupEntry t k

/-- Inserts every entry of the second list into the first, in order. -/
def insertList (m : List (String × String)) : List (String × String) → List (String × String)
  | [] => m
  | (k, v) :: t => insertList (insertEntry m k v) t

/-- Modelled from the spec: the reserved status-hash key under which the
aggregate input hash is persisted (common.InputHashName). -/
def inputHashName : String := "input"

/-- Modelled from the spec: util.SetHash stores the value under the key and
reports whether the stored value changed. -/
def setHash (m : List (String × String)) (k v : String) : List (String × String) × Bool :=
  (insertEntry m k v, decide (¬ lookupEntry m k = some v))

/-- Transport-security configuration of the Redis spec: an optional
service-certificate secret reference and a CA bundle secret name. -/
structure TLSSpec where
  secretName : Option String
  caBundleSecretName : String
deriving DecidableEq

/-- Modelled from the spec: transport security is enabled exactly when a
service certificate secret is referenced. -/
def tlsEnabled (t : TLSSpec) : Bool := t.secretName.isSome

/-- The part of the Redis spec the reconcile pass reads. -/
structure RedisSpec where
  tls : TLSSpec
deriving DecidableEq

/-- The Redis status: the condition ledger (nil before first observation)
and the persisted input-hash map. -/
structure RedisStatus where
  conditions : Option (List Condition)
  hash : List (String × String)
deriving DecidableEq

/-- The Redis instance as the pass sees it. -/
structure Redis where
  spec : RedisSpec
  status : RedisStatus
deriving DecidableEq

/-- ctrl.Result: requeue flag and requeue-after duration (zero = none). -/
structure CtrlResult where
  requeue : Bool
  requeueAfter : Nat
deriving DecidableEq

/-- The zero value ctrl.Result\x7b\x7d. -/
def emptyResult : CtrlResult := ⟨false, 0⟩

/-- Outcome pair (ctrl.Result, error) of a sub-reconciler call. -/
structure SubResult where
  res : CtrlResult
  err : Option String
deriving DecidableEq

/-- Outcome of a secret validation call: the returned hash (possibly empty)
and the error, mirroring ValidateCertSecret / ValidateCACertSecret. -/
structure ValidateResult where
  hash : String
  err : Option String
deriving DecidableEq

/-- Outcome of fetching the Redis instance at the top of the pass. -/
inductive GetResult where
  | notFound
  | getError (e : String)
  | found (inst : Redis)
deriving DecidableEq

/-- How a pass terminates: a normal (result, error) return, or a runtime
panic (which in Go still runs the deferred status patch and then
propagates). -/
inductive RetVal where
  | ok (res : CtrlResult) (err : Option String)
  | panicked (msg : String)
deriving DecidableEq

/-- The Go runtime error message raised by dereferencing a nil error. -/
def nilDereferenceMessage : String :=
  "runtime error: invalid memory address or nil pointer dereference"

/-- Observable side-effecting steps of one pass, used to state which
sub-resource work a pass performs. -/
inductive Action where
  | reconcileRbac
  | validateCert
  | validateCA
  | generateConfigMaps
  | headlessCreateOrPatch
  | exposeCreateOrPatch
  | statefulSetCreateOrPatch
  | patchStatus
deriving DecidableEq

/-- Environment of one pass: the outcomes every external collaborator call
would produce if reached. Each field corresponds to one call site in
Reconcile. -/
structure Env where
  get : GetResult
  newHelper : Option String
  rbac : SubResult
  validateCert : ValidateResult
  validateCA : ValidateResult
  generateConfigMaps : Except String (List (String × String))
  hashOfInputHashes : List (String × String) → Except String String
  newHeadlessService : Option String
  headlessCreateOrPatch : SubResult
  newExposeService : Option String
  exposeCreateOrPatch : SubResult
  statefulSetCreateOrPatch : SubResult
  readyReplicas : Nat
  patchInstance : Option String

/-- Result of the input fingerprinting stage (lines 205-221): the
accumulated hash entries, the pending error variable, and which
validations ran. -/
structure InputCheck where
  entries : List (String × String)
  err : Option String
  actions : List Action
deriving DecidableEq

/-- Lines 210-213: when transport security is enabled the certificate
secret is validated and a "Cert" entry is stored (even when validation
failed, with the returned hash). -/
def certStepOf (t : TLSSpec) (env : Env) : InputCheck :=
  if tlsEnabled t then
    { entries := insertEntry [] "Cert" env.validateCert.hash
      err := env.validateCert.err
      actions := [Action.validateCert] }
  else
    { entries := [], err := none, actions := [] }

/-- Lines 205-221: the certificate step, then, only when no error is
pending and the CA bundle secret name is non-empty, the CA secret is
validated and a "CA" entry is stored. -/
def checkInputs (t : TLSSpec) (env : Env) : InputCheck :=
  if (certStepOf t env).err = none ∧ t.caBundleSecretName ≠ "" then
    { entries := insertEntry (certStepOf t env).entries "CA" env.validateCA.hash
      err := env.validateCA.err
      actions := (certStepOf t env).actions ++ [Action.validateCA] }
  else
    certStepOf t env

/-- Replaces the condition ledger of an instance. -/
def withConds (i : Redis) (l : List Condition) : Redis :=
  { i with status := { i.status with conditions := some l } }

/-- What the body of one pass produced before the deferred finalization. -/
structure BodyOut where
  ret : RetVal
  inst : Redis
  actions : List Action

/-- Lines 155-329 of Reconcile: everything between installing the deferred
status patch and returning. Each leaf mirrors one return statement of the
source. On the two endpoint create-or-patch failure paths the source
builds the False condition message from the variable err, which is nil
there (it was last assigned by the preceding successful NewService call),
so the pass panics before the condition is set and before the
(hlres, hlerr) / (sres, serr) return is reached. -/
def reconcileBody (env : Env) (inst0 : Redis) : BodyOut :=
  match inst0.status.conditions with
  | none =>
    -- lines 155-177: initialize the ledger and return early
    ⟨RetVal.ok emptyResult none,
      { inst0 with status := { inst0.status with conditions := some initialConditionList } },
      []⟩
  | some conds0 =>
    -- lines 184-202: service account, role, role binding
    match env.rbac.err with
    | some e => ⟨RetVal.ok env.rbac.res (some e), inst0, [Action.reconcileRbac]⟩
    | none =>
      if env.rbac.res ≠ emptyResult then
        ⟨RetVal.ok env.rbac.res none, inst0, [Action.reconcileRbac]⟩
      else
        -- lines 205-231: check and hash inputs
        let ic := checkInputs inst0.spec.tls env
        match ic.err with
        | some e =>
          ⟨RetVal.ok emptyResult (some ("error calculating input hash: " ++ e)),
            withConds inst0 (setCondition conds0
              (falseCondition CondType.tlsInputReady CondReason.reasonError
                CondSeverity.sevWarning (condMessage tlsInputErrorMessage e))),
            [Action.reconcileRbac] ++ ic.actions⟩
        | none =>
          let conds1 := markTrue conds0 CondType.tlsInputReady inputReadyMessage
          -- lines 234-244: config maps
          match env.generateConfigMaps with
          | Except.error e =>
            ⟨RetVal.ok emptyResult (some ("error calculating configmap hash: " ++ e)),
              withConds inst0 (setCondition conds1
                (falseCondition CondType.serviceConfigReady CondReason.reasonError
                  CondSeverity.sevWarning (condMessage serviceConfigReadyErrorMessage e))),
              [Action.reconcileRbac] ++ ic.actions ++ [Action.generateConfigMaps]⟩
          | Except.ok cmEntries =>
            let conds2 := markTrue conds1 CondType.serviceConfigReady serviceConfigReadyMessage
            let inputHashEnv := insertList ic.entries cmEntries
            let acts2 := [Action.reconcileRbac] ++ ic.actions ++ [Action.generateConfigMaps]
            -- lines 250-265: aggregate hash and change detection
            match env.hashOfInputHashes inputHashEnv with
            | Except.error e => ⟨RetVal.ok emptyResult (some e), withConds inst0 conds2, acts2⟩
            | Except.ok hashOfHashes =>
              let sh := setHash inst0.status.hash inputHashName hashOfHashes
              if sh.2 then
                ⟨RetVal.ok emptyResult none,
                  { inst0 with status :=
                    { conditions := some conds2, hash := insertList sh.1 inputHashEnv } },
                  acts2⟩
              else
                -- lines 267-288: headless service
                match env.newHeadlessService with
                | some e =>
                  ⟨RetVal.ok emptyResult (some e),
                    withConds inst0 (setCondition conds2
                      (falseCondition CondType.exposeServiceReady CondReason.reasonError
                        CondSeverity.sevWarning (condMessage exposeServiceReadyErrorMessage e))),
                    acts2⟩
                | none =>
                  match env.headlessCreateOrPatch.err with
                  | some _ =>
                    -- line 286 formats the message from the nil err: panic
                    ⟨RetVal.panicked nilDereferenceMessage, withConds inst0 conds2,
                      acts2 ++ [Action.headlessCreateOrPatch]⟩
                  | none =>
                    -- lines 290-311: exposing service
                    match env.newExposeService with
                    | some e =>
                      ⟨RetVal.ok emptyResult (some e),
                        withConds inst0 (setCondition conds2
                          (falseCondition CondType.exposeServiceReady CondReason.reasonError
                            CondSeverity.sevWarning (condMessage exposeServiceReadyErrorMessage e))),
                        acts2 ++ [Action.headlessCreateOrPatch]⟩
                    | none =>
                      match env.exposeCreateOrPatch.err with
                      | some _ =>
                        -- line 308 formats the message from the nil err: panic
                        ⟨RetVal.panicked nilDereferenceMessage, withConds inst0 conds2,
                          acts2 ++ [Action.headlessCreateOrPatch, Action.exposeCreateOrPatch]⟩
                      | none =>
                        let conds3 := markTrue conds2 CondType.exposeServiceReady exposeServiceReadyMessage
                        -- lines 317-329: statefulset and readiness observation
                        match env.statefulSetCreateOrPatch.err with
                        | some e =>
                          ⟨RetVal.ok env.statefulSetCreateOrPatch.res (some e),
                            withConds inst0 conds3,
                            acts2 ++ [Action.headlessCreateOrPatch, Action.exposeCreateOrPatch,
                              Action.statefulSetCreateOrPatch]⟩
                        | none =>
                          let conds4 :=
                            if env.readyReplicas > 0 then
                              markTrue conds3 CondType.deploymentReady deploymentReadyMessage
                            else conds3
                          ⟨RetVal.ok emptyResult none, withConds inst0 conds4,
                            acts2 ++ [Action.headlessCreateOrPatch, Action.exposeCreateOrPatch,
                              Action.statefulSetCreateOrPatch]⟩

/-- Overall outcome of one Reconcile invocation. -/
structure PassResult where
  ret : RetVal
  inst : Option Redis
  actions : List Action

/-- Reconcile (lines 103-330): fetch the instance, build the helper, run
the body, then apply the deferred finalization: recompute the overall
Ready condition and patch the status; a patch failure overwrites the error
the body returned (a panic keeps propagating regardless). -/
def reconcile (env : Env) : PassResult :=
  match env.get with
  | GetResult.notFound => ⟨RetVal.ok emptyResult none, none, []⟩
  | GetResult.getError e => ⟨RetVal.ok emptyResult (some e), none, []⟩
  | GetResult.found inst0 =>
    match env.newHelper with
    | some e => ⟨RetVal.ok emptyResult (some e), some inst0, []⟩
    | none =>
      let b := reconcileBody env inst0
      let instF := withConds b.inst (recomputeOverallReadiness (b.inst.status.conditions.getD []))
      let ret :=
        match env.patchInstance with
        | some pe =>
          match b.ret with
          | RetVal.ok res _ => RetVal.ok res (some pe)
          | RetVal.panicked m => RetVal.panicked m
        | none => b.ret
      ⟨ret, some instF, b.actions ++ [Action.patchStatus]⟩

/-- The condition ledger of the instance a pass ends with. -/
def finalConditions (p : PassResult) : List Condition :=
  match p.inst with
  | some i => i.status.conditions.getD []
  | none => []

/-- The status hash map of the instance a pass ends with. -/
def finalHash (p : PassResult) : List (String × String) :=
  match p.inst with
  | some i => i.status.hash
  | none => []

/-! Concrete instances and environments used to exercise the embedding. -/

/-- A Redis instance past first observation, transport security disabled,
whose persisted aggregate hash already matches this pass. -/
def steadyInstance : Redis :=
  ⟨⟨⟨none, ""⟩⟩, ⟨some initialConditionList, [(inputHashName, "agg")]⟩⟩

/-- An environment in which every collaborator call succeeds. -/
def steadyEnv : Env :=
  { get := GetResult.found steadyInstance
    newHelper := none
    rbac := ⟨emptyResult, none⟩
    validateCert := ⟨"certhash", none⟩
    validateCA := ⟨"cahash", none⟩
    generateConfigMaps := Except.ok [("redis-scripts", "scripthash"), ("redis-config-data", "confighash")]
    hashOfInputHashes := fun _ => Except.ok "agg"
    newHeadlessService := none
    headlessCreateOrPatch := ⟨emptyResult, none⟩
    newExposeService := none
    exposeCreateOrPatch := ⟨emptyResult, none⟩
    statefulSetCreateOrPatch := ⟨emptyResult, none⟩
    readyReplicas := 1
    patchInstance := none }

/-! Association-list lemmas. -/

/-- The keys of an association list, in order. -/
def keysOf : List (String × String) → List String
  | [] => []
  | (k, _) :: t => k :: keysOf t

/-- Inserting a key makes it look up to the inserted value. -/
theorem lookupEntry_insertEntry_self (m : List (String × String)) (k v : String) :
    lookupEntry (insertEntry m k v) k = some v := by
  induction m with
  | nil => simp [insertEntry, lookupEntry]
  | cons p t ih =>
    obtain ⟨k', v'⟩ := p
    by_cases h : k' = k
    · simp [insertEntry, lookupEntry, h]
    · simp [insertEntry, lookupEntry, h, ih]

/-- Inserting one key does not change the lookup of another. -/
theorem lookupEntry_insertEntry_ne (m : List (String × String)) {k' k : String} (v : String)
    (h : k' ≠ k) : lookupEntry (insertEntry m k' v) k = lookupEntry m k := by
  induction m with
  | nil => simp [insertEntry, lookupEntry, h]
  | cons p t ih =>
    obtain ⟨k0, v0⟩ := p
    by_cases h0 : k0 = k'
    · subst h0
      simp [insertEntry, lookupEntry, h]
    · simp [insertEntry, lookupEntry, h0, ih]

/-- Keys after an insertion are the inserted key or prior keys. -/
theorem mem_keysOf_insertEntry (m : List (String × String)) (k v a : String)
    (h : a ∈ keysOf (insertEntry m k v)) : a = k ∨ a ∈ keysOf m := by
  induction m with
  | nil => simpa [insertEntry, keysOf] using h
  | cons p t ih =>
    obtain ⟨k0, v0⟩ := p
    by_cases h0 : k0 = k
    · simp only [insertEntry, if_pos h0, keysOf, List.mem_cons] at h
      rcases h with h | h
      · exact Or.inl h
      · exact Or.inr (by simp [keysOf, h])
    · simp only [insertEntry, if_neg h0, keysOf, List.mem_cons] at h
      rcases h with h | h
      · exact Or.inr (by simp [keysOf, h])
      · rcases ih h with h' | h'
        · exact Or.inl h'
        · exact Or.inr (by simp [keysOf, h'])

/-- Insertion preserves key distinctness. -/
theorem nodup_keysOf_insertEntry (m : List (String × String)) (k v : String)
    (h : (keysOf m).Nodup) : (keysOf (insertEntry m k v)).Nodup := by
  induction m with
  | nil => simp [insertEntry, keysOf]
  | cons p t ih =>
    obtain ⟨k0, v0⟩ := p
    simp only [keysOf, List.nodup_cons] at h
    by_cases h0 : k0 = k
    · simp only [insertEntry, if_pos h0, keysOf, List.nodup_cons]
      exact ⟨h0 ▸ h.1, h.2⟩
    · simp only [insertEntry, if_neg h0, keysOf, List.nodup_cons]
      refine ⟨?_, ih h.2⟩
      intro habs
      rcases mem_keysOf_insertEntry t k v k0 habs with h' | h'
      · exact h0 h'
      · exact h.1 h'

/-- Folding a list of insertions preserves key distinctness. -/
theorem nodup_keysOf_insertList (l m : List (String × String))
    (h : (keysOf m).Nodup) : (keysOf (insertList m l)).Nodup := by
  induction l generalizing m with
  | nil => simpa [insertList] using h
  | cons p t ih =>
    obtain ⟨k, v⟩ := p
    exact ih _ (nodup_keysOf_insertEntry m k v h)

/-- A lookup misses exactly when the key is absent. -/
theorem lookupEntry_eq_none_iff (m : List (String × String)) (k : String) :
    lookupEntry m k = none ↔ k ∉ keysOf m := by
  induction m with
  | nil => simp [lookupEntry, keysOf]
  | cons p t ih =>
    obtain ⟨k0, v0⟩ := p
    by_cases h0 : k0 = k
    · simp [lookupEntry, keysOf, h0]
    · simp only [lookupEntry, if_neg h0, ih, keysOf, List.mem_cons]
      constructor
      · exact fun h hab => hab.elim (fun he => h0 he.symm) h
      · exact fun h hm => h (Or.inr hm)

/-- Inserting entries none of which carry the key leaves its lookup alone. -/
theorem lookupEntry_insertList_of_none (l : List (String × String)) {k : String}
    (h : lookupEntry l k = none) (m : List (String × String)) :
    lookupEntry (insertList m l) k = lookupEntry m k := by
  induction l generalizing m with
  | nil => simp [insertList]
  | cons p t ih =>
    obtain ⟨k0, v0⟩ := p
    by_cases h0 : k0 = k
    · simp [lookupEntry, h0] at h
    · simp only [lookupEntry, if_neg h0] at h
      simpa [insertList] using (ih h _).trans (lookupEntry_insertEntry_ne m v0 h0)

/-- For key-distinct entry lists, every entry survives the fold of
insertions and is found at its stored value. -/
theorem lookupEntry_insertList_of_some (l : List (String × String))
    (hnd : (keysOf l).Nodup) {k v : String} (hk : lookupEntry l k = some v)
    (m : List (String × String)) : lookupEntry (insertList m l) k = some v := by
  induction l generalizing m with
  | nil => simp [lookupEntry] at hk
  | cons p t ih =>
    obtain ⟨k0, v0⟩ := p
    simp only [keysOf, List.nodup_cons] at hnd
    by_cases h0 : k0 = k
    · simp only [lookupEntry, if_pos h0] at hk
      have hkt : lookupEntry t k = none := by
        rw [lookupEntry_eq_none_iff]
        intro habs
        exact hnd.1 (h0 ▸ habs)
      simp only [insertList]
      rw [lookupEntry_insertList_of_none t hkt]
      rw [h0, lookupEntry_insertEntry_self]
      exact congrArg some (Option.some.inj hk)
    · simp only [lookupEntry, if_neg h0] at hk
      simpa [insertList] using ih hnd.2 hk _

/-! Condition-ledger lemmas. -/

/-- ctype of a built True condition. -/
theorem trueCondition_ctype (t : CondType) (msg : String) :
    (trueCondition t msg).ctype = t := rfl

/-- status of a built True condition. -/
theorem trueCondition_status (t : CondType) (msg : String) :
    (trueCondition t msg).status = CondStatus.isTrue := rfl

/-- ctype of a built Unknown condition. -/
theorem unknownCondition_ctype (t : CondType) (r : CondReason) (msg : String) :
    (unknownCondition t r msg).ctype = t := rfl

/-- status of a built Unknown condition. -/
theorem unknownCondition_status (t : CondType) (r : CondReason) (msg : String) :
    (unknownCondition t r msg).status = CondStatus.unknown := rfl

/-- ctype of a built False condition. -/
theorem falseCondition_ctype (t : CondType) (r : CondReason) (sev : CondSeverity) (msg : String) :
    (falseCondition t r sev msg).ctype = t := rfl

/-- status of a built False condition. -/
theorem falseCondition_status (t : CondType) (r : CondReason) (sev : CondSeverity) (msg : String) :
    (falseCondition t r sev msg).status = CondStatus.isFalse := rfl

/-- Looking up a type after an upsert: the upserted condition if the type
matches, the old entry otherwise. -/
theorem getCondition_setCondition (l : List Condition) (c : Condition) (ty : CondType) :
    getCondition (setCondition l c) ty = if c.ctype = ty then some c else getCondition l ty := by
  induction l with
  | nil => simp [setCondition, getCondition]
  | cons c' t ih =>
    by_cases h : c'.ctype = c.ctype
    · rw [setCondition, if_pos h]
      by_cases hc : c.ctype = ty
      · rw [getCondition, if_pos hc, if_pos hc]
      · rw [getCondition, if_neg hc, if_neg hc, getCondition,
          if_neg (show ¬ c'.ctype = ty from fun he => hc (h.symm.trans he))]
    · rw [setCondition, if_neg h, getCondition]
      by_cases hc' : c'.ctype = ty
      · rw [if_pos hc', if_neg (show ¬ c.ctype = ty from fun he => h (hc'.trans he.symm)),
          getCondition, if_pos hc']
      · rw [if_neg hc', ih]
        by_cases hcc : c.ctype = ty
        · rw [if_pos hcc, if_pos hcc]
        · rw [if_neg hcc, if_neg hcc, getCondition, if_neg hc']

/-- A member of an upserted ledger is the new condition or an old member. -/
theorem mem_setCondition (l : List Condition) (c x : Condition)
    (h : x ∈ setCondition l c) : x = c ∨ x ∈ l := by
  induction l with
  | nil => simpa [setCondition] using h
  | cons c' t ih =>
    by_cases h' : c'.ctype = c.ctype
    · simp only [setCondition, if_pos h', List.mem_cons] at h
      rcases h with h | h
      · exact Or.inl h
      · exact Or.inr (List.mem_cons_of_mem _ h)
    · simp only [setCondition, if_neg h', List.mem_cons] at h
      rcases h with h | h
      · exact Or.inr (h ▸ List.mem_cons_self c' t)
      · rcases ih h with h2 | h2
        · exact Or.inl h2
        · exact Or.inr (List.mem_cons_of_mem _ h2)

/-- An old member of a different type survives an upsert. -/
theorem mem_setCondition_of_ne (l : List Condition) (c x : Condition)
    (hx : x ∈ l) (h : x.ctype ≠ c.ctype) : x ∈ setCondition l c := by
  induction l with
  | nil => cases hx
  | cons c' t ih =>
    rcases List.mem_cons.mp hx with h1 | h1
    · by_cases h' : c'.ctype = c.ctype
      · exact absurd (h1 ▸ h') h
      · subst h1
        simp [setCondition, h']
    · by_cases h' : c'.ctype = c.ctype
      · simp only [setCondition, if_pos h', List.mem_cons]
        exact Or.inr h1
      · simp only [setCondition, if_neg h', List.mem_cons]
        exact Or.inr (ih h1)

/-- Boolean AllSubConditionIsTrue in propositional form. -/
theorem allSub_eq_true_iff (l : List Condition) :
    allSubConditionIsTrue l = true ↔
      ∀ c ∈ l, c.ctype ≠ CondType.ready → c.status = CondStatus.isTrue := by
  simp only [allSubConditionIsTrue, List.all_eq_true, Bool.or_eq_true, decide_eq_true_eq]
  constructor
  · exact fun h c hc hne => (h c hc).resolve_left hne
  · exact fun h c hc => or_iff_not_imp_left.mpr (h c hc)

/-- pickMostSevere never fails on a non-empty list. -/
theorem pickMostSevere_spec (xs : List Condition) (hne : xs ≠ []) :
    ∃ c, pickMostSevere xs = some c ∧ c ∈ xs ∧
      ∀ x ∈ xs, severityRank x ≤ severityRank c := by
  induction xs with
  | nil => exact absurd rfl hne
  | cons c t ih =>
    cases t with
    | nil =>
      refine ⟨c, by simp [pickMostSevere], List.mem_cons_self c [], ?_⟩
      intro x hx
      rcases List.mem_cons.mp hx with h | h
      · exact h ▸ Nat.le_refl _
      · cases h
    | cons c2 t2 =>
      obtain ⟨c', hp, hm, hb⟩ := ih (by simp)
      have hstep : pickMostSevere (c :: c2 :: t2) =
          (match pickMostSevere (c2 :: t2) with
           | none => some c
           | some c' => if severityRank c' > severityRank c then some c' else some c) := rfl
      by_cases hr : severityRank c' > severityRank c
      · refine ⟨c', ?_, List.mem_cons_of_mem _ hm, ?_⟩
        · rw [hstep, hp]
          simp [hr]
        · intro x hx
          rcases List.mem_cons.mp hx with h | h
          · exact h ▸ Nat.le_of_lt hr
          · exact hb x h
      · refine ⟨c, ?_, List.mem_cons_self _ _, ?_⟩
        · rw [hstep, hp]
          simp [hr]
        · intro x hx
          rcases List.mem_cons.mp hx with h | h
          · exact h ▸ Nat.le_refl _
          · exact Nat.le_trans (hb x h) (Nat.le_of_not_lt hr)

/-- A condition ranks zero exactly when it is True. -/
theorem severityRank_eq_zero_iff (c : Condition) :
    severityRank c = 0 ↔ c.status = CondStatus.isTrue := by
  obtain ⟨ty, s, r, sev, m⟩ := c
  cases s with
  | isTrue => simp [severityRank]
  | isFalse => cases sev <;> simp [severityRank]
  | unknown => simp [severityRank]

/-- A mirror carries the target type. -/
theorem mirror_ctype (l : List Condition) (target : CondType) (c : Condition)
    (h : mirror l target = some c) : c.ctype = target := by
  unfold mirror at h
  cases hp : pickMostSevere (l.filter fun c => !decide (c.ctype = CondType.ready)) with
  | none => rw [hp] at h; cases h
  | some c' =>
    rw [hp] at h
    cases h
    rfl

/-- When some sub-condition is not True, the mirror of the most severe
sub-condition exists and is itself not True. -/
theorem mirror_spec (l : List Condition) (x : Condition) (hx : x ∈ l)
    (hxr : x.ctype ≠ CondType.ready) (hxs : x.status ≠ CondStatus.isTrue) :
    ∃ m, mirror l CondType.ready = some m ∧ m.ctype = CondType.ready ∧
      m.status ≠ CondStatus.isTrue := by
  have hxf : x ∈ l.filter fun c => !decide (c.ctype = CondType.ready) :=
    List.mem_filter.mpr ⟨hx, by simp [hxr]⟩
  obtain ⟨c, hp, hm, hb⟩ := pickMostSevere_spec _ (List.ne_nil_of_mem hxf)
  refine ⟨{ c with ctype := CondType.ready }, ?_, rfl, ?_⟩
  · simp [mirror, hp]
  · intro habs
    have hcs : c.status = CondStatus.isTrue := habs
    have hc0 : severityRank c = 0 := (severityRank_eq_zero_iff c).mpr hcs
    have hx1 : 1 ≤ severityRank x :=
      Nat.pos_of_ne_zero fun h0 => hxs ((severityRank_eq_zero_iff x).mp h0)
    have := Nat.le_trans hx1 (hb x hxf)
    omega

/-- Recomputing overall readiness does not change any sub-condition entry. -/
theorem getCondition_recompute_ne (l : List Condition) (ty : CondType)
    (h : ty ≠ CondType.ready) :
    getCondition (recomputeOverallReadiness l) ty = getCondition l ty := by
  have hne : ¬ CondType.ready = ty := fun he => h he.symm
  unfold recomputeOverallReadiness
  split
  · rw [markTrue, getCondition_setCondition, trueCondition_ctype, if_neg hne]
  · cases hm : mirror (markUnknown l CondType.ready CondReason.reasonInit readyInitMessage)
      CondType.ready with
    | none =>
      simp only [hm]
      rw [markUnknown, getCondition_setCondition, unknownCondition_ctype, if_neg hne]
    | some c =>
      simp only [hm]
      have hc : c.ctype = CondType.ready := mirror_ctype _ _ _ hm
      rw [getCondition_setCondition, hc, if_neg hne, markUnknown, getCondition_setCondition,
        unknownCondition_ctype, if_neg hne]

/-- After recomputing overall readiness, the ledger has a Ready entry and
that entry is True exactly when every other entry of the resulting ledger
is True. -/
theorem recompute_ready_iff (l : List Condition) :
    ∃ r, getCondition (recomputeOverallReadiness l) CondType.ready = some r ∧
      (r.status = CondStatus.isTrue ↔
        ∀ c ∈ recomputeOverallReadiness l, c.ctype ≠ CondType.ready →
          c.status = CondStatus.isTrue) := by
  by_cases hall : allSubConditionIsTrue l = true
  · have hrec : recomputeOverallReadiness l = markTrue l CondType.ready readyMessage := by
      unfold recomputeOverallReadiness
      rw [if_pos hall]
    refine ⟨trueCondition CondType.ready readyMessage, ?_, ?_⟩
    · rw [hrec, markTrue, getCondition_setCondition]
      simp [trueCondition]
    · refine iff_of_true rfl ?_
      intro c hc hcr
      rw [hrec] at hc
      rcases mem_setCondition _ _ _ hc with h1 | h1
      · rw [h1]
        rfl
      · exact (allSub_eq_true_iff l).mp hall c h1 hcr
  · have hbad : ∃ x ∈ l, x.ctype ≠ CondType.ready ∧ x.status ≠ CondStatus.isTrue := by
      rw [allSub_eq_true_iff] at hall
      push_neg at hall
      exact hall
    obtain ⟨x, hxl, hxr, hxs⟩ := hbad
    have hxl' : x ∈ markUnknown l CondType.ready CondReason.reasonInit readyInitMessage :=
      mem_setCondition_of_ne _ _ _ hxl (by simpa [unknownCondition] using hxr)
    obtain ⟨m, hm, hmr, hms⟩ := mirror_spec _ x hxl' hxr hxs
    have hrec : recomputeOverallReadiness l =
        setCondition (markUnknown l CondType.ready CondReason.reasonInit readyInitMessage) m := by
      unfold recomputeOverallReadiness
      rw [if_neg hall, hm]
    refine ⟨m, ?_, ?_⟩
    · rw [hrec, getCondition_setCondition, hmr]
      simp
    · refine iff_of_false hms ?_
      intro hforall
      have hxm : x ∈ recomputeOverallReadiness l := by
        rw [hrec]
        exact mem_setCondition_of_ne _ _ _ hxl' (hmr ▸ hxr)
      exact hxs (hforall x hxm hxr)

/-! Input fingerprinting lemmas. -/

/-- The fingerprinting stage only ever runs the two validations. -/
theorem checkInputs_actions (t : TLSSpec) (env : Env) (a : Action)
    (h : a ∈ (checkInputs t env).actions) :
    a = Action.validateCert ∨ a = Action.validateCA := by
  by_cases he : tlsEnabled t <;> by_cases hce : env.validateCert.err = none <;>
    by_cases hca : t.caBundleSecretName = "" <;>
    simp [checkInputs, certStepOf, he, hce, hca] at h <;> tauto

/-- The fingerprinting stage produces key-distinct entries. -/
theorem checkInputs_entries_nodup (t : TLSSpec) (env : Env) :
    (keysOf (checkInputs t env).entries).Nodup := by
  by_cases he : tlsEnabled t <;> by_cases hce : env.validateCert.err = none <;>
    by_cases hca : t.caBundleSecretName = "" <;>
    simp [checkInputs, certStepOf, he, hce, hca, insertEntry, keysOf]

/-- Any action other than the two validations is absent from the
fingerprinting stage. -/
theorem not_mem_checkInputs_actions (t : TLSSpec) (env : Env) (a : Action)
    (h1 : a ≠ Action.validateCert) (h2 : a ≠ Action.validateCA) :
    a ∉ (checkInputs t env).actions :=
  fun h => (checkInputs_actions t env a h).elim h1 h2

/-! Pass-level structural lemmas. -/

/-- The body of a pass never patches the status itself; only the deferred
finalization does. -/
theorem body_no_patchStatus (env : Env) (inst0 : Redis) :
    Action.patchStatus ∉ (reconcileBody env inst0).actions := by
  have hci := not_mem_checkInputs_actions inst0.spec.tls env Action.patchStatus
    (by decide) (by decide)
  unfold reconcileBody
  cases hic : (checkInputs inst0.spec.tls env).err with
  | none =>
    simp only [hic]
    repeat' split
    all_goals simp_all
  | some e =>
    simp only [hic]
    repeat' split
    all_goals simp_all

/-- Actions of a pass that fetched its instance: the body's actions plus
the single deferred status patch. -/
theorem reconcile_found_actions (env : Env) (inst0 : Redis)
    (hget : env.get = GetResult.found inst0) (hh : env.newHelper = none) :
    (reconcile env).actions = (reconcileBody env inst0).actions ++ [Action.patchStatus] := by
  simp [reconcile, hget, hh]

/-- Final conditions of a pass that fetched its instance: the body's
ledger after the deferred overall-readiness recomputation. -/
theorem reconcile_found_conditions (env : Env) (inst0 : Redis)
    (hget : env.get = GetResult.found inst0) (hh : env.newHelper = none) :
    finalConditions (reconcile env) =
      recomputeOverallReadiness ((reconcileBody env inst0).inst.status.conditions.getD []) := by
  simp [reconcile, hget, hh, finalConditions, withConds]

/-- Final hash map of a pass that fetched its instance: unchanged by the
deferred finalization. -/
theorem reconcile_found_hash (env : Env) (inst0 : Redis)
    (hget : env.get = GetResult.found inst0) (hh : env.newHelper = none) :
    finalHash (reconcile env) = (reconcileBody env inst0).inst.status.hash := by
  simp [reconcile, hget, hh, finalHash, withConds]

/-- Returned value of a pass that fetched its instance: the body's return,
with the error overwritten when the deferred status patch fails. -/
theorem reconcile_found_ret (env : Env) (inst0 : Redis)
    (hget : env.get = GetResult.found inst0) (hh : env.newHelper = none) :
    (reconcile env).ret =
      match env.patchInstance with
      | some pe =>
        match (reconcileBody env inst0).ret with
        | RetVal.ok res _ => RetVal.ok res (some pe)
        | RetVal.panicked m => RetVal.panicked m
      | none => (reconcileBody env inst0).ret := by
  simp [reconcile, hget, hh]

/-- C1: at the end of every pass that observed its instance, the Ready
condition exists and is True exactly when every other condition of the
final ledger is True; in particular any single sub-condition that is not
True forces Ready away from True within the same pass. -/
theorem ready_condition_mirrors_subconditions (env : Env) (inst0 : Redis)
    (hget : env.get = GetResult.found inst0) (hh : env.newHelper = none) :
    ∃ r, getCondition (finalConditions (reconcile env)) CondType.ready = some r ∧
      (r.status = CondStatus.isTrue ↔
        ∀ c ∈ finalConditions (reconcile env), c.ctype ≠ CondType.ready →
          c.status = CondStatus.isTrue) := by
  rw [reconcile_found_conditions env inst0 hget hh]
  exact recompute_ready_iff _

theorem ready_condition_mirrors_subconditions_witness :
    ∃ r, getCondition (finalConditions (reconcile steadyEnv)) CondType.ready = some r ∧
      (r.status = CondStatus.isTrue ↔
        ∀ c ∈ finalConditions (reconcile steadyEnv), c.ctype ≠ CondType.ready →
          c.status = CondStatus.isTrue) :=
  ready_condition_mirrors_subconditions steadyEnv steadyInstance rfl rfl

/-- C7: every pass that observed its instance runs the deferred
finalization exactly once (a single status persist), and when that status
patch fails its error replaces whatever error the body intended to
return. -/
theorem status_persisted_once_and_patch_failure_overrides (env : Env) (inst0 : Redis)
    (hget : env.get = GetResult.found inst0) (hh : env.newHelper = none) :
    (reconcile env).actions.count Action.patchStatus = 1 ∧
    (∀ pe r e, env.patchInstance = some pe →
      (reconcile env).ret = RetVal.ok r e → e = some pe) := by
  constructor
  · rw [reconcile_found_actions env inst0 hget hh, List.count_append,
      List.count_eq_zero.mpr (body_no_patchStatus env inst0)]
    rfl
  · intro pe r e hpe hret
    rw [reconcile_found_ret env inst0 hget hh, hpe] at hret
    cases hbr : (reconcileBody env inst0).ret with
    | ok res e0 =>
      rw [hbr] at hret
      simp at hret
      exact hret.2.symm
    | panicked m =>
      rw [hbr] at hret
      simp at hret

theorem status_persisted_once_and_patch_failure_overrides_witness :
    (reconcile steadyEnv).actions.count Action.patchStatus = 1 ∧
    (∀ pe r e, steadyEnv.patchInstance = some pe →
      (reconcile steadyEnv).ret = RetVal.ok r e → e = some pe) :=
  status_persisted_once_and_patch_failure_overrides steadyEnv steadyInstance rfl rfl

/-- A Redis instance that has never been observed: empty status. -/
def freshInstance : Redis := ⟨⟨⟨none, ""⟩⟩, ⟨none, []⟩⟩

/-- Environment for a first observation. -/
def firstObservationEnv : Env := { steadyEnv with get := GetResult.found freshInstance }

/-- C8: a pass whose instance has an empty condition ledger initializes
every declared condition to Unknown, persists the status, returns success,
and performs no sub-resource work at all. -/
theorem first_observation_initializes_and_stops (env : Env) (inst0 : Redis)
    (hget : env.get = GetResult.found inst0) (hh : env.newHelper = none)
    (hc : inst0.status.conditions = none) (hpatch : env.patchInstance = none) :
    (reconcile env).ret = RetVal.ok emptyResult none ∧
    (reconcile env).actions = [Action.patchStatus] ∧
    (∀ t : CondType, ∃ c, getCondition (finalConditions (reconcile env)) t = some c ∧
      c.status = CondStatus.unknown) := by
  have hbody : reconcileBody env inst0 = ⟨RetVal.ok emptyResult none,
      { inst0 with status := { inst0.status with conditions := some initialConditionList } },
      []⟩ := by
    unfold reconcileBody
    rw [hc]
  refine ⟨?_, ?_, ?_⟩
  · rw [reconcile_found_ret env inst0 hget hh, hpatch, hbody]
  · rw [reconcile_found_actions env inst0 hget hh, hbody]
    rfl
  · rw [reconcile_found_conditions env inst0 hget hh, hbody]
    intro t
    cases t <;> exact ⟨_, rfl, rfl⟩

theorem first_observation_initializes_and_stops_witness :
    (reconcile firstObservationEnv).ret = RetVal.ok emptyResult none ∧
    (reconcile firstObservationEnv).actions = [Action.patchStatus] ∧
    (∀ t : CondType, ∃ c, getCondition (finalConditions (reconcile firstObservationEnv)) t = some c ∧
      c.status = CondStatus.unknown) :=
  first_observation_initializes_and_stops firstObservationEnv freshInstance rfl rfl rfl rfl

/-- Membership helper for the action trace of an aborted input stage. -/
theorem not_mem_abort_actions (t : TLSSpec) (env : Env) (a : Action)
    (h1 : a ≠ Action.reconcileRbac) (h2 : a ≠ Action.validateCert)
    (h3 : a ≠ Action.validateCA) (h4 : a ≠ Action.patchStatus) :
    a ∉ (Action.reconcileRbac :: (checkInputs t env).actions) ++ [Action.patchStatus] := by
  intro h
  rcases List.mem_append.mp h with h' | h'
  · rcases List.mem_cons.mp h' with h'' | h''
    · exact h1 h''
    · exact not_mem_checkInputs_actions t env a h2 h3 h''
  · simp at h'
    exact h4 h'

/-- Membership helper for the action trace of a hash-drift pass. -/
theorem not_mem_drift_actions (t : TLSSpec) (env : Env) (a : Action)
    (h1 : a ≠ Action.reconcileRbac) (h2 : a ≠ Action.validateCert)
    (h3 : a ≠ Action.validateCA) (h4 : a ≠ Action.generateConfigMaps)
    (h5 : a ≠ Action.patchStatus) :
    a ∉ (Action.reconcileRbac ::
      ((checkInputs t env).actions ++ [Action.generateConfigMaps])) ++ [Action.patchStatus] := by
  intro h
  rcases List.mem_append.mp h with h' | h'
  · rcases List.mem_cons.mp h' with h'' | h''
    · exact h1 h''
    · rcases List.mem_append.mp h'' with h3' | h3'
      · exact not_mem_checkInputs_actions t env a h2 h3 h3'
      · simp at h3'
        exact h4 h3'
  · simp at h'
    exact h5 h'

/-- C2: when the aggregate input hash differs from the persisted one, the
pass persists the new aggregate and every individual input hash, touches
neither endpoint nor workload objects, and returns success. -/
theorem hash_drift_persists_and_skips (env : Env) (inst0 : Redis) (conds0 : List Condition)
    (cms : List (String × String)) (agg : String)
    (hget : env.get = GetResult.found inst0) (hh : env.newHelper = none)
    (hc : inst0.status.conditions = some conds0)
    (hrbe : env.rbac.err = none) (hrbr : env.rbac.res = emptyResult)
    (hic : (checkInputs inst0.spec.tls env).err = none)
    (hcm : env.generateConfigMaps = Except.ok cms)
    (hagg : env.hashOfInputHashes (insertList (checkInputs inst0.spec.tls env).entries cms) =
      Except.ok agg)
    (hch : lookupEntry inst0.status.hash inputHashName ≠ some agg)
    (hpatch : env.patchInstance = none) :
    (reconcile env).ret = RetVal.ok emptyResult none ∧
    Action.headlessCreateOrPatch ∉ (reconcile env).actions ∧
    Action.exposeCreateOrPatch ∉ (reconcile env).actions ∧
    Action.statefulSetCreateOrPatch ∉ (reconcile env).actions ∧
    (∀ k v, lookupEntry (insertList (checkInputs inst0.spec.tls env).entries cms) k = some v →
      lookupEntry (finalHash (reconcile env)) k = some v) ∧
    (lookupEntry (insertList (checkInputs inst0.spec.tls env).entries cms) inputHashName = none →
      lookupEntry (finalHash (reconcile env)) inputHashName = some agg) := by
  have hsh2 : (setHash inst0.status.hash inputHashName agg).2 = true := by
    simp [setHash, hch]
  have hret : (reconcileBody env inst0).ret = RetVal.ok emptyResult none := by
    simp [reconcileBody, hc, hrbe, hrbr, hic, hcm, hagg, hsh2]
  have hacts : (reconcileBody env inst0).actions =
      Action.reconcileRbac ::
        ((checkInputs inst0.spec.tls env).actions ++ [Action.generateConfigMaps]) := by
    simp [reconcileBody, hc, hrbe, hrbr, hic, hcm, hagg, hsh2]
  have hhash : (reconcileBody env inst0).inst.status.hash =
      insertList (insertEntry inst0.status.hash inputHashName agg)
        (insertList (checkInputs inst0.spec.tls env).entries cms) := by
    have h1 : (reconcileBody env inst0).inst.status.hash =
        insertList (setHash inst0.status.hash inputHashName agg).1
          (insertList (checkInputs inst0.spec.tls env).entries cms) := by
      simp [reconcileBody, hc, hrbe, hrbr, hic, hcm, hagg, hsh2]
    rw [h1]
    rfl
  refine ⟨?_, ?_, ?_, ?_, ?_, ?_⟩
  · rw [reconcile_found_ret env inst0 hget hh, hpatch]
    exact hret
  · rw [reconcile_found_actions env inst0 hget hh, hacts]
    exact not_mem_drift_actions _ _ _ (by decide) (by decide) (by decide) (by decide) (by decide)
  · rw [reconcile_found_actions env inst0 hget hh, hacts]
    exact not_mem_drift_actions _ _ _ (by decide) (by decide) (by decide) (by decide) (by decide)
  · rw [reconcile_found_actions env inst0 hget hh, hacts]
    exact not_mem_drift_actions _ _ _ (by decide) (by decide) (by decide) (by decide) (by decide)
  · intro k v hk
    rw [reconcile_found_hash env inst0 hget hh, hhash]
    exact lookupEntry_insertList_of_some _
      (nodup_keysOf_insertList cms _ (checkInputs_entries_nodup inst0.spec.tls env)) hk _
  · intro hnone
    rw [reconcile_found_hash env inst0 hget hh, hhash,
      lookupEntry_insertList_of_none _ hnone, lookupEntry_insertEntry_self]

/-- Environment in which the freshly computed aggregate differs from the
persisted one. -/
def driftEnv : Env := { steadyEnv with hashOfInputHashes := fun _ => Except.ok "newagg" }

theorem hash_drift_persists_and_skips_witness :
    (reconcile driftEnv).ret = RetVal.ok emptyResult none ∧
    Action.headlessCreateOrPatch ∉ (reconcile driftEnv).actions ∧
    Action.exposeCreateOrPatch ∉ (reconcile driftEnv).actions ∧
    Action.statefulSetCreateOrPatch ∉ (reconcile driftEnv).actions ∧
    (∀ k v, lookupEntry (insertList (checkInputs steadyInstance.spec.tls driftEnv).entries
        [("redis-scripts", "scripthash"), ("redis-config-data", "confighash")]) k = some v →
      lookupEntry (finalHash (reconcile driftEnv)) k = some v) ∧
    (lookupEntry (insertList (checkInputs steadyInstance.spec.tls driftEnv).entries
        [("redis-scripts", "scripthash"), ("redis-config-data", "confighash")]) inputHashName = none →
      lookupEntry (finalHash (reconcile driftEnv)) inputHashName = some "newagg") :=
  hash_drift_persists_and_skips driftEnv steadyInstance initialConditionList
    [("redis-scripts", "scripthash"), ("redis-config-data", "confighash")] "newagg"
    rfl rfl rfl rfl rfl rfl rfl rfl (by decide) rfl

/-- C6: a failed certificate or CA validation marks the TLS input
condition False with the error reason, aborts the pass with a wrapped
fatal error, and performs no configuration, endpoint or workload work. -/
theorem input_validation_failure_aborts (env : Env) (inst0 : Redis) (conds0 : List Condition)
    (e : String)
    (hget : env.get = GetResult.found inst0) (hh : env.newHelper = none)
    (hc : inst0.status.conditions = some conds0)
    (hrbe : env.rbac.err = none) (hrbr : env.rbac.res = emptyResult)
    (hic : (checkInputs inst0.spec.tls env).err = some e)
    (hpatch : env.patchInstance = none) :
    (reconcile env).ret = RetVal.ok emptyResult (some ("error calculating input hash: " ++ e)) ∧
    (∃ c, getCondition (finalConditions (reconcile env)) CondType.tlsInputReady = some c ∧
      c.status = CondStatus.isFalse ∧ c.reason = CondReason.reasonError) ∧
    Action.generateConfigMaps ∉ (reconcile env).actions ∧
    Action.headlessCreateOrPatch ∉ (reconcile env).actions ∧
    Action.exposeCreateOrPatch ∉ (reconcile env).actions ∧
    Action.statefulSetCreateOrPatch ∉ (reconcile env).actions := by
  have hret : (reconcileBody env inst0).ret =
      RetVal.ok emptyResult (some ("error calculating input hash: " ++ e)) := by
    simp [reconcileBody, hc, hrbe, hrbr, hic]
  have hacts : (reconcileBody env inst0).actions =
      Action.reconcileRbac :: (checkInputs inst0.spec.tls env).actions := by
    simp [reconcileBody, hc, hrbe, hrbr, hic]
  have hconds : (reconcileBody env inst0).inst.status.conditions =
      some (setCondition conds0 (falseCondition CondType.tlsInputReady CondReason.reasonError
        CondSeverity.sevWarning (condMessage tlsInputErrorMessage e))) := by
    simp [reconcileBody, hc, hrbe, hrbr, hic, withConds]
  refine ⟨?_, ?_, ?_, ?_, ?_, ?_⟩
  · rw [reconcile_found_ret env inst0 hget hh, hpatch]
    exact hret
  · refine ⟨falseCondition CondType.tlsInputReady CondReason.reasonError CondSeverity.sevWarning
      (condMessage tlsInputErrorMessage e), ?_, rfl, rfl⟩
    rw [reconcile_found_conditions env inst0 hget hh, hconds]
    simp only [Option.getD_some]
    rw [getCondition_recompute_ne _ _ (by decide), getCondition_setCondition,
      falseCondition_ctype, if_pos rfl]
  · rw [reconcile_found_actions env inst0 hget hh, hacts]
    exact not_mem_abort_actions _ _ _ (by decide) (by decide) (by decide) (by decide)
  · rw [reconcile_found_actions env inst0 hget hh, hacts]
    exact not_mem_abort_actions _ _ _ (by decide) (by decide) (by decide) (by decide)
  · rw [reconcile_found_actions env inst0 hget hh, hacts]
    exact not_mem_abort_actions _ _ _ (by decide) (by decide) (by decide) (by decide)
  · rw [reconcile_found_actions env inst0 hget hh, hacts]
    exact not_mem_abort_actions _ _ _ (by decide) (by decide) (by decide) (by decide)

/-- A Redis instance that references a certificate secret and a CA bundle. -/
def certFailInstance : Redis :=
  ⟨⟨⟨some "cert-secret", "combined-ca-bundle"⟩⟩, ⟨some initialConditionList, [(inputHashName, "agg")]⟩⟩

/-- Environment in which certificate-secret validation fails. -/
def certFailEnv : Env :=
  { steadyEnv with
    get := GetResult.found certFailInstance
    validateCert := ⟨"", some "secret not found"⟩ }

theorem input_validation_failure_aborts_witness :
    (reconcile certFailEnv).ret =
      RetVal.ok emptyResult (some ("error calculating input hash: " ++ "secret not found")) ∧
    (∃ c, getCondition (finalConditions (reconcile certFailEnv)) CondType.tlsInputReady = some c ∧
      c.status = CondStatus.isFalse ∧ c.reason = CondReason.reasonError) ∧
    Action.generateConfigMaps ∉ (reconcile certFailEnv).actions ∧
    Action.headlessCreateOrPatch ∉ (reconcile certFailEnv).actions ∧
    Action.exposeCreateOrPatch ∉ (reconcile certFailEnv).actions ∧
    Action.statefulSetCreateOrPatch ∉ (reconcile certFailEnv).actions :=
  input_validation_failure_aborts certFailEnv certFailInstance initialConditionList
    "secret not found" rfl rfl rfl rfl rfl rfl rfl

/-- C9: when transport security is enabled and certificate validation
fails, the Cert entry (with the returned hash) is still stored, the CA
bundle secret is never validated even if its name is non-empty, and the
pass aborts surfacing only the certificate error. -/
theorem cert_failure_skips_ca_and_aborts (t : TLSSpec) (env : Env) (e : String)
    (he : tlsEnabled t = true) (hce : env.validateCert.err = some e) :
    checkInputs t env = ⟨[("Cert", env.validateCert.hash)], some e, [Action.validateCert]⟩ ∧
    (∀ inst0 conds0, env.get = GetResult.found inst0 → env.newHelper = none →
      inst0.spec.tls = t → inst0.status.conditions = some conds0 →
      env.rbac.err = none → env.rbac.res = emptyResult → env.patchInstance = none →
      (reconcile env).ret = RetVal.ok emptyResult (some ("error calculating input hash: " ++ e)) ∧
      Action.validateCA ∉ (reconcile env).actions ∧
      Action.generateConfigMaps ∉ (reconcile env).actions) := by
  have hci : checkInputs t env =
      ⟨insertEntry [] "Cert" env.validateCert.hash, some e, [Action.validateCert]⟩ := by
    simp [checkInputs, certStepOf, he, hce]
  constructor
  · rw [hci]
    rfl
  · intro inst0 conds0 hget hh htls hc hrbe hrbr hpatch
    have hic : (checkInputs inst0.spec.tls env).err = some e := by rw [htls, hci]
    have hica : (checkInputs inst0.spec.tls env).actions = [Action.validateCert] := by
      rw [htls, hci]
    have hret : (reconcileBody env inst0).ret =
        RetVal.ok emptyResult (some ("error calculating input hash: " ++ e)) := by
      simp [reconcileBody, hc, hrbe, hrbr, hic]
    have hacts : (reconcileBody env inst0).actions =
        Action.reconcileRbac :: (checkInputs inst0.spec.tls env).actions := by
      simp [reconcileBody, hc, hrbe, hrbr, hic]
    refine ⟨?_, ?_, ?_⟩
    · rw [reconcile_found_ret env inst0 hget hh, hpatch]
      exact hret
    · rw [reconcile_found_actions env inst0 hget hh, hacts, hica]
      decide
    · rw [reconcile_found_actions env inst0 hget hh, hacts, hica]
      decide

theorem cert_failure_skips_ca_and_aborts_witness :
    checkInputs certFailInstance.spec.tls certFailEnv =
      ⟨[("Cert", certFailEnv.validateCert.hash)], some "secret not found",
        [Action.validateCert]⟩ ∧
    (reconcile certFailEnv).ret =
      RetVal.ok emptyResult (some ("error calculating input hash: " ++ "secret not found")) ∧
    Action.validateCA ∉ (reconcile certFailEnv).actions ∧
    Action.generateConfigMaps ∉ (reconcile certFailEnv).actions :=
  ⟨(cert_failure_skips_ca_and_aborts certFailInstance.spec.tls certFailEnv
      "secret not found" rfl rfl).1,
    (cert_failure_skips_ca_and_aborts certFailInstance.spec.tls certFailEnv
      "secret not found" rfl rfl).2 certFailInstance initialConditionList
      rfl rfl rfl rfl rfl rfl rfl⟩

/-- Environment in which the headless-service create-or-patch fails. -/
def failingHeadlessEnv : Env :=
  { steadyEnv with headlessCreateOrPatch := ⟨emptyResult, some "create headless service failed"⟩ }

/-- C3 (code bug): when the headless-service create-or-patch fails, line
286 of the source formats the condition message from the variable err,
which is nil on that path, so the pass panics: the expose-service
condition is never marked False and the sub-reconciler's (result, error)
pair is never returned. -/
theorem endpoint_failure_panics_instead_of_marking :
    (reconcile failingHeadlessEnv).ret = RetVal.panicked nilDereferenceMessage ∧
    getCondition (finalConditions (reconcile failingHeadlessEnv)) CondType.exposeServiceReady =
      some (unknownCondition CondType.exposeServiceReady CondReason.reasonInit
        exposeServiceReadyInitMessage) ∧
    (reconcile failingHeadlessEnv).ret ≠
      RetVal.ok failingHeadlessEnv.headlessCreateOrPatch.res
        failingHeadlessEnv.headlessCreateOrPatch.err := by decide

/-- A transport-security configuration with security disabled but a CA
bundle secret name set. -/
def tlsDisabledWithCA : TLSSpec := ⟨none, "combined-ca-bundle"⟩

/-- C4 counterexample: with transport security disabled but a non-empty CA
bundle secret name, the pass still produces a "CA" hash entry, against the
claim that a disabled configuration produces neither entry. -/
theorem ca_entry_produced_despite_disabled_transport_security :
    tlsEnabled tlsDisabledWithCA = false ∧
    lookupEntry (checkInputs tlsDisabledWithCA steadyEnv).entries "CA" = some "cahash" ∧
    (checkInputs tlsDisabledWithCA steadyEnv).err = none := by decide

/-- C4 (amended): the "Cert" entry is present exactly when a certificate
secret is referenced, the "CA" entry exactly when the CA bundle secret
name is non-empty (regardless of whether transport security is enabled),
and a disabled configuration with no CA bundle yields no entries and no
error. -/
theorem input_hash_entries_characterization (t : TLSSpec) (env : Env)
    (hcert : tlsEnabled t = true → env.validateCert.err = none) :
    lookupEntry (checkInputs t env).entries "Cert" =
      (if tlsEnabled t then some env.validateCert.hash else none) ∧
    lookupEntry (checkInputs t env).entries "CA" =
      (if t.caBundleSecretName ≠ "" then some env.validateCA.hash else none) ∧
    (tlsEnabled t = false → t.caBundleSecretName = "" →
      (checkInputs t env).entries = [] ∧ (checkInputs t env).err = none) := by
  by_cases he : tlsEnabled t
  · have hce := hcert he
    by_cases hca : t.caBundleSecretName = ""
    · simp [checkInputs, certStepOf, he, hce, hca, insertEntry, lookupEntry]
    · simp [checkInputs, certStepOf, he, hce, hca, insertEntry, lookupEntry]
  · by_cases hca : t.caBundleSecretName = ""
    · simp [checkInputs, certStepOf, he, hca, insertEntry, lookupEntry]
    · simp [checkInputs, certStepOf, he, hca, insertEntry, lookupEntry]

/-- A transport-security configuration with both secrets referenced. -/
def tlsEnabledSpec : TLSSpec := ⟨some "cert-secret", "combined-ca-bundle"⟩

theorem input_hash_entries_characterization_witness :
    lookupEntry (checkInputs tlsEnabledSpec steadyEnv).entries "Cert" =
      (if tlsEnabled tlsEnabledSpec then some steadyEnv.validateCert.hash else none) ∧
    lookupEntry (checkInputs tlsEnabledSpec steadyEnv).entries "CA" =
      (if tlsEnabledSpec.caBundleSecretName ≠ "" then some steadyEnv.validateCA.hash else none) ∧
    (tlsEnabled tlsEnabledSpec = false → tlsEnabledSpec.caBundleSecretName = "" →
      (checkInputs tlsEnabledSpec steadyEnv).entries = [] ∧
      (checkInputs tlsEnabledSpec steadyEnv).err = none) :=
  input_hash_entries_characterization tlsEnabledSpec steadyEnv (fun _ => rfl)

/-- Across every path of the body, the deployment-ready ledger entry is
either untouched or upserted to True; it is never set to False. -/
theorem body_deploymentReady (env : Env) (inst0 : Redis) (conds0 : List Condition)
    (hcc : inst0.status.conditions = some conds0) :
    getCondition ((reconcileBody env inst0).inst.status.conditions.getD [])
        CondType.deploymentReady = getCondition conds0 CondType.deploymentReady ∨
    getCondition ((reconcileBody env inst0).inst.status.conditions.getD [])
        CondType.deploymentReady =
      some (trueCondition CondType.deploymentReady deploymentReadyMessage) := by
  unfold reconcileBody
  simp only [hcc]
  cases hic : (checkInputs inst0.spec.tls env).err <;> simp only [hic] <;> repeat' split
  all_goals simp [hcc, withConds, markTrue, getCondition_setCondition, trueCondition_ctype,
    falseCondition_ctype]

/-- C5: a deployment-ready condition that is True at the start of a pass
is still True at its end (no upsert failure resets it), and a workload
create-or-patch failure returns that sub-reconciler's result and error
without changing the deployment-ready condition. -/
theorem workload_ready_never_reset (env : Env) (inst0 : Redis)
    (hget : env.get = GetResult.found inst0) (hh : env.newHelper = none) :
    (∀ c0, getCondition (inst0.status.conditions.getD []) CondType.deploymentReady = some c0 →
      c0.status = CondStatus.isTrue →
      ∃ c1, getCondition (finalConditions (reconcile env)) CondType.deploymentReady = some c1 ∧
        c1.status = CondStatus.isTrue) ∧
    (∀ conds0 cms agg e,
      inst0.status.conditions = some conds0 →
      env.rbac.err = none → env.rbac.res = emptyResult →
      (checkInputs inst0.spec.tls env).err = none →
      env.generateConfigMaps = Except.ok cms →
      env.hashOfInputHashes (insertList (checkInputs inst0.spec.tls env).entries cms) =
        Except.ok agg →
      lookupEntry inst0.status.hash inputHashName = some agg →
      env.newHeadlessService = none → env.headlessCreateOrPatch.err = none →
      env.newExposeService = none → env.exposeCreateOrPatch.err = none →
      env.statefulSetCreateOrPatch.err = some e →
      env.patchInstance = none →
      (reconcile env).ret = RetVal.ok env.statefulSetCreateOrPatch.res (some e) ∧
      getCondition (finalConditions (reconcile env)) CondType.deploymentReady =
        getCondition conds0 CondType.deploymentReady) := by
  constructor
  · intro c0 h hs
    cases hcc : inst0.status.conditions with
    | none =>
      rw [hcc] at h
      simp [getCondition] at h
    | some conds0 =>
      rw [hcc] at h
      simp only [Option.getD_some] at h
      rw [reconcile_found_conditions env inst0 hget hh,
        getCondition_recompute_ne _ _ (by decide)]
      rcases body_deploymentReady env inst0 conds0 hcc with hbd | hbd
      · exact ⟨c0, hbd.trans h, hs⟩
      · exact ⟨trueCondition CondType.deploymentReady deploymentReadyMessage, hbd, rfl⟩
  · intro conds0 cms agg e hcc hrbe hrbr hic hcm hagg hnch hnh hhcp hnex hecp hsfs hpatch
    have hsh2 : (setHash inst0.status.hash inputHashName agg).2 = false := by
      simp [setHash, hnch]
    have hret : (reconcileBody env inst0).ret =
        RetVal.ok env.statefulSetCreateOrPatch.res (some e) := by
      simp [reconcileBody, hcc, hrbe, hrbr, hic, hcm, hagg, hsh2, hnh, hhcp, hnex, hecp, hsfs]
    have hconds : (reconcileBody env inst0).inst.status.conditions =
        some (markTrue (markTrue (markTrue conds0 CondType.tlsInputReady inputReadyMessage)
          CondType.serviceConfigReady serviceConfigReadyMessage)
          CondType.exposeServiceReady exposeServiceReadyMessage) := by
      simp [reconcileBody, hcc, hrbe, hrbr, hic, hcm, hagg, hsh2, hnh, hhcp, hnex, hecp, hsfs,
        withConds]
    refine ⟨?_, ?_⟩
    · rw [reconcile_found_ret env inst0 hget hh, hpatch]
      exact hret
    · rw [reconcile_found_conditions env inst0 hget hh, hconds]
      simp only [Option.getD_some]
      rw [getCondition_recompute_ne _ _ (by decide)]
      simp [markTrue, getCondition_setCondition, trueCondition_ctype]

/-- A ledger in which the deployment-ready condition is already True. -/
def deployReadyLedger : List Condition :=
  markTrue initialConditionList CondType.deploymentReady deploymentReadyMessage

/-- An instance whose deployment-ready condition is already True. -/
def deployReadyInstance : Redis :=
  ⟨⟨⟨none, ""⟩⟩, ⟨some deployReadyLedger, [(inputHashName, "agg")]⟩⟩

/-- Environment in which the workload create-or-patch fails. -/
def sfsFailEnv : Env :=
  { steadyEnv with
    get := GetResult.found deployReadyInstance
    statefulSetCreateOrPatch := ⟨⟨false, 5⟩, some "statefulset conflict"⟩ }

theorem workload_ready_never_reset_witness :
    (∃ c1, getCondition (finalConditions (reconcile sfsFailEnv)) CondType.deploymentReady =
        some c1 ∧ c1.status = CondStatus.isTrue) ∧
    (reconcile sfsFailEnv).ret =
      RetVal.ok sfsFailEnv.statefulSetCreateOrPatch.res (some "statefulset conflict") ∧
    getCondition (finalConditions (reconcile sfsFailEnv)) CondType.deploymentReady =
      getCondition deployReadyLedger CondType.deploymentReady :=
  ⟨(workload_ready_never_reset sfsFailEnv deployReadyInstance rfl rfl).1
      (trueCondition CondType.deploymentReady deploymentReadyMessage) (by decide) rfl,
    ((workload_ready_never_reset sfsFailEnv deployReadyInstance rfl rfl).2 deployReadyLedger
      [("redis-scripts", "scripthash"), ("redis-config-data", "confighash")] "agg"
      "statefulset conflict" rfl rfl rfl rfl rfl rfl (by decide) rfl rfl rfl rfl rfl rfl).1,
    ((workload_ready_never_reset sfsFailEnv deployReadyInstance rfl rfl).2 deployReadyLedger
      [("redis-scripts", "scripthash"), ("redis-config-data", "confighash")] "agg"
      "statefulset conflict" rfl rfl rfl rfl rfl rfl (by decide) rfl rfl rfl rfl rfl rfl).2⟩

/-- Across every path of the body, a returned non-empty ctrl.Result comes
verbatim from the permission reconciler or the workload create-or-patch. -/
theorem body_nonempty_result (env : Env) (inst0 : Redis) (r : CtrlResult) (e : Option String)
    (hret : (reconcileBody env inst0).ret = RetVal.ok r e) (hr : r ≠ emptyResult) :
    r = env.rbac.res ∨ r = env.statefulSetCreateOrPatch.res := by
  unfold reconcileBody at hret
  cases hcc : inst0.status.conditions with
  | none =>
    simp only [hcc] at hret
    simp at hret
    simp_all
  | some conds0 =>
    simp only [hcc] at hret
    cases hic : (checkInputs inst0.spec.tls env).err <;> simp only [hic] at hret <;>
      repeat' (split at hret)
    all_goals simp_all

/-- C10: the pass itself only ever constructs the empty result; any
non-empty result it returns is propagated unchanged from the permission
reconciler or the workload create-or-patch. -/
theorem nonempty_result_comes_from_subreconciler (env : Env) (r : CtrlResult) (e : Option String)
    (hret : (reconcile env).ret = RetVal.ok r e) (hr : r ≠ emptyResult) :
    r = env.rbac.res ∨ r = env.statefulSetCreateOrPatch.res := by
  unfold reconcile at hret
  cases hg : env.get with
  | notFound =>
    simp only [hg] at hret
    simp at hret
    simp_all
  | getError e' =>
    simp only [hg] at hret
    simp at hret
    simp_all
  | found inst0 =>
    cases hhh : env.newHelper with
    | some e' =>
      simp only [hg, hhh] at hret
      simp at hret
      simp_all
    | none =>
      simp only [hg, hhh] at hret
      cases hpe : env.patchInstance with
      | none =>
        simp only [hpe] at hret
        exact body_nonempty_result env inst0 r e hret hr
      | some pe =>
        simp only [hpe] at hret
        cases hbr : (reconcileBody env inst0).ret with
        | ok res e0 =>
          rw [hbr] at hret
          obtain ⟨h1, h2⟩ := RetVal.ok.inj hret
          subst h1
          exact body_nonempty_result env inst0 _ e0 hbr hr
        | panicked m =>
          rw [hbr] at hret
          simp at hret

/-- Environment in which the permission reconciler requests a requeue. -/
def pendingRbacEnv : Env := { steadyEnv with rbac := ⟨⟨true, 0⟩, none⟩ }

theorem nonempty_result_comes_from_subreconciler_witness :
    (⟨true, 0⟩ : CtrlResult) = pendingRbacEnv.rbac.res ∨
    (⟨true, 0⟩ : CtrlResult) = pendingRbacEnv.statefulSetCreateOrPatch.res :=
  nonempty_result_comes_from_subreconciler pendingRbacEnv ⟨true, 0⟩ none (by decide) (by decide)

end RedisController
